import Mathlib

/-!
Verification development for the Job-Portal Flask application (`app.py`).

The application is a single-process CRUD service over three tables
(users, jobs, applications).  We embed the persistent state as explicit
lists of rows, timestamps as naturals supplied by the caller (`now`,
standing for `datetime.utcnow()`), and each POST route handler as a pure
function `AppState → … → Option Err × AppState`: the first component is
`some e` when the handler bails out with a flash-and-redirect error
(the spec's taxonomy: ValidationError / Unauthorized / Forbidden /
NotFound / Conflict), in which case the returned state is the input
state (no commit happened); it is `none` on the committed success path.
-/

namespace JobPortal

/-- Error taxonomy of spec §7. -/
inductive Err where
  | validation
  | unauthorized
  | forbidden
  | notFound
  | conflict
deriving DecidableEq, Repr

/-- Row of the `user` table (model `User` in app.py).
`password_hash` is produced by werkzeug's `generate_password_hash`,
whose internals are out of scope (spec §1); we keep the field abstract. -/
structure User where
  id : Nat
  fullname : String
  email : String
  password_hash : String
  is_admin : Bool
  is_employer : Bool
  created_at : Nat
deriving DecidableEq, Repr

/-- Row of the `job` table (model `Job` in app.py).  `posted_by_id` is a
nullable foreign key onto `user.id`. -/
structure Job where
  id : Nat
  job_title : String
  company : String
  salary : String
  description : String
  location : String
  job_type : String
  created_at : Nat
  posted_by_id : Option Nat
deriving DecidableEq, Repr

/-- Row of the `application` table (model `Application` in app.py). -/
structure Application where
  id : Nat
  applicant_id : Nat
  job_id : Nat
  cover_letter : String
  resume_path : Option String
  created_at : Nat
deriving DecidableEq, Repr

/-- The persistent store: the three tables plus the autoincrement
counters for their integer primary keys. -/
structure AppState where
  users : List User
  jobs : List Job
  applications : List Application
  nextUserId : Nat
  nextJobId : Nat
  nextAppId : Nat
deriving DecidableEq, Repr

/-- Fields of the registration form POSTed to `/register`.
`is_employer` models `request.form.get("is_employer")`: the checkbox is
present with value `"on"` exactly when ticked. -/
structure RegisterForm where
  fullname : String
  email : String
  password : String
  confirm : String
  is_employer : Option String
deriving DecidableEq, Repr

/-- Fields of the job-creation form POSTed to `/job/create`; the code
reads every field with default `""`. -/
structure JobForm where
  job_title : String
  company : String
  salary : String
  description : String
  location : String
  job_type : String
deriving DecidableEq, Repr

/-- Fields of the edit form POSTed to `/job/<id>/edit`; the code reads
each field with the job's current value as default, so an absent field
is `none` here. -/
structure EditForm where
  job_title : Option String
  company : Option String
  salary : Option String
  location : Option String
  job_type : Option String
  description : Option String
deriving DecidableEq, Repr

/-- Python's `str.strip()`: remove leading and trailing whitespace.
(Implemented over the character list so that it evaluates inside the
kernel; `String.trim` is byte-position based and does not.) -/
def strip (s : String) : String :=
  ⟨((s.data.dropWhile Char.isWhitespace).reverse.dropWhile
      Char.isWhitespace).reverse⟩

/-- Python's `str.lower()` / SQL `lower()` (ASCII case folding). -/
def lower (s : String) : String := ⟨s.data.map Char.toLower⟩

/-- werkzeug's password hash; its internals are external to the spec
(§1, §4.1) and no claim depends on them, so it is abstracted as the
identity embedding of the password. -/
def generate_password_hash (pwd : String) : String := pwd

/-- `ALLOWED_EXTENSIONS = {"pdf","doc", "docx"}` (app.py line 25). -/
def ALLOWED_EXTENSIONS : List String := ["pdf", "doc", "docx"]

/-- The characters after the last `'.'` of a filename, i.e. Python's
`filename.rsplit(".", 1)[1]` when a dot occurs. -/
def afterLastDot (s : List Char) : List Char :=
  (s.reverse.takeWhile (fun c => c != '.')).reverse

/-- `allowed_file` (app.py lines 123-124):
`"." in filename and filename.rsplit(".", 1)[1].lower() in ALLOWED_EXTENSIONS`. -/
def allowed_file (filename : String) : Bool :=
  filename.data.contains '.' &&
    ALLOWED_EXTENSIONS.contains (lower ⟨afterLastDot filename.data⟩)

/-- SQL `LIKE` matching as SQLite evaluates the `ilike` filters of the
index route: `%` matches any sequence of characters, `_` matches any
single character, and any other pattern character matches a text
character case-insensitively (ASCII).  Implemented with explicit fuel;
every recursive call shrinks `pattern.length + text.length`, so the fuel
`likeCI` supplies is never exhausted. -/
def likeAux : Nat → List Char → List Char → Bool
  | 0, _, _ => false
  | _ + 1, p, [] => p.all (fun c => c == '%')
  | _ + 1, [], _ :: _ => false
  | fuel + 1, '%' :: ps, c :: str =>
      likeAux fuel ps (c :: str) || likeAux fuel ('%' :: ps) str
  | fuel + 1, '_' :: ps, _ :: str => likeAux fuel ps str
  | fuel + 1, a :: ps, c :: str =>
      a.toLower == c.toLower && likeAux fuel ps str

/-- Case-insensitive SQL `LIKE`: `likeCI pattern text`. -/
def likeCI (pattern text : String) : Bool :=
  likeAux (pattern.length + text.length + 1) pattern.toList text.toList

/-- The conjunction of filters built by the index route (app.py lines
136-148): each filter is applied only when its (already stripped)
parameter is non-empty; the free-text filter is
`job_title ilike %q% OR description ilike %q%`, the other three compare
`lower(column) = lower(value)`. -/
def jobMatchesFilters (q company location job_type : String) (j : Job) : Bool :=
  (q == "" || likeCI ("%" ++ q ++ "%") j.job_title
           || likeCI ("%" ++ q ++ "%") j.description) &&
  (company == "" || lower j.company == lower company) &&
  (location == "" || lower j.location == lower location) &&
  (job_type == "" || lower j.job_type == lower job_type)

/-- Ordering used by `order_by(Job.created_at.desc())`: newest first. -/
def byNewest (a b : Job) : Prop := b.created_at ≤ a.created_at

instance : DecidableRel byNewest := fun a b => Nat.decLe b.created_at a.created_at

instance : IsTotal Job byNewest := ⟨fun a b => Nat.le_total b.created_at a.created_at⟩

instance : IsTrans Job byNewest :=
  ⟨fun _ _ _ hab hbc => Nat.le_trans hbc hab⟩

/-- The `index` route (`GET /`, app.py lines 128-150) restricted to its
job-list result: strip the four query parameters, filter, and order by
creation time descending (SQL leaves the relative order of equal keys
unspecified; insertion sort realises one admissible order). -/
def listJobs (s : AppState) (q company location job_type : String) : List Job :=
  List.insertionSort byNewest
    (s.jobs.filter
      (jobMatchesFilters (strip q) (strip company) (strip location)
        (strip job_type)))

/-- The POST branch of `/register` (app.py lines 173-200). -/
def register (s : AppState) (now : Nat) (f : RegisterForm) :
    Option Err × AppState :=
  let fullname := strip f.fullname
  let email := lower (strip f.email)
  let password := f.password
  let confirm := f.confirm
  if fullname == "" || email == "" || password == "" || confirm == "" then
    (some .validation, s)
  else if password != confirm then
    (some .validation, s)
  else if (s.users.find? (fun u => u.email == email)).isSome then
    (some .conflict, s)
  else
    let u : User :=
      { id := s.nextUserId
        fullname := fullname
        email := email
        password_hash := generate_password_hash password
        is_admin := false
        is_employer := f.is_employer == some "on"
        created_at := now }
    (none, { s with users := s.users ++ [u], nextUserId := s.nextUserId + 1 })

/-- The POST branch of `/job/create` (app.py lines 232-263); `u` is
`current_user` (the route is behind `login_required`). -/
def create_job (s : AppState) (now : Nat) (u : User) (f : JobForm) :
    Option Err × AppState :=
  if !(u.is_employer || u.is_admin) then
    (some .forbidden, s)
  else
    let title := strip f.job_title
    let company := strip f.company
    let salary := strip f.salary
    let description := strip f.description
    let location := strip f.location
    let job_type := strip f.job_type
    if title == "" || company == "" || description == "" then
      (some .validation, s)
    else
      let job : Job :=
        { id := s.nextJobId
          job_title := title
          company := company
          salary := salary
          description := description
          location := location
          job_type := job_type
          created_at := now
          posted_by_id := some u.id }
      (none, { s with jobs := s.jobs ++ [job], nextJobId := s.nextJobId + 1 })

/-- The POST branch of `/job/<id>/edit` (app.py lines 315-332): each
field is read with the job's current value as default and the result is
stripped; no non-emptiness validation is performed. -/
def edit_job (s : AppState) (u : User) (job_id : Nat) (f : EditForm) :
    Option Err × AppState :=
  match s.jobs.find? (fun j => j.id == job_id) with
  | none => (some .notFound, s)
  | some job =>
    if job.posted_by_id != some u.id && !u.is_admin then
      (some .forbidden, s)
    else
      let job' : Job :=
        { job with
          job_title := strip (f.job_title.getD job.job_title)
          company := strip (f.company.getD job.company)
          salary := strip (f.salary.getD job.salary)
          location := strip (f.location.getD job.location)
          job_type := strip (f.job_type.getD job.job_type)
          description := strip (f.description.getD job.description) }
      (none, { s with jobs := s.jobs.map (fun j => if j.id == job.id then job' else j) })

/-- Resume handling inside the POST branch of `/job/<id>/apply` (app.py
lines 288-299): a missing file or an empty filename means "no resume";
a present filename must pass `allowed_file`, and is then stored under
`secure_filename(f"{user id}_{timestamp}_{original}")` (werkzeug's
sanitiser is external and kept abstract in the generated name). -/
def resumeStep (uid now : Nat) (resume : Option String) :
    Except Err (Option String) :=
  match resume with
  | none => .ok none
  | some f =>
    if f == "" then .ok none
    else if allowed_file f then
      .ok (some (toString uid ++ "_" ++ toString now ++ "_" ++ f))
    else .error .validation

/-- The POST branch of `/job/<id>/apply` (app.py lines 276-310); `u` is
`current_user`.  Order of checks as in the code: job lookup (404), then
the duplicate-application check, then resume validation, then insert. -/
def apply (s : AppState) (now : Nat) (u : User) (job_id : Nat)
    (cover_letter : String) (resume : Option String) :
    Option Err × AppState :=
  match s.jobs.find? (fun j => j.id == job_id) with
  | none => (some .notFound, s)
  | some job =>
    if (s.applications.find?
          (fun a => a.job_id == job.id && a.applicant_id == u.id)).isSome then
      (some .conflict, s)
    else
      match resumeStep u.id now resume with
      | .error e => (some e, s)
      | .ok resume_filename =>
        let a : Application :=
          { id := s.nextAppId
            applicant_id := u.id
            job_id := job.id
            cover_letter := strip cover_letter
            resume_path := resume_filename
            created_at := now }
        (none, { s with applications := s.applications ++ [a],
                        nextAppId := s.nextAppId + 1 })

/-- `POST /job/<id>/delete` (app.py lines 334-345).  `db.session.delete(job)`
cascades over the `applications` relationship (`cascade="all, delete-orphan"`,
app.py line 75), removing every application of the job. -/
def delete_job (s : AppState) (u : User) (job_id : Nat) :
    Option Err × AppState :=
  match s.jobs.find? (fun j => j.id == job_id) with
  | none => (some .notFound, s)
  | some job =>
    if job.posted_by_id != some u.id && !u.is_admin then
      (some .forbidden, s)
    else
      (none, { s with
        jobs := s.jobs.filter (fun j => j.id != job.id),
        applications := s.applications.filter (fun a => a.job_id != job.id) })

/-- `POST /admin/users/<id>/delete` (app.py lines 377-388), behind
`admin_required`.  `db.session.delete(user)` cascades over the user's
`posted_jobs` and `applications` relationships (app.py lines 65, 76);
each posted job in turn cascades over its applications (line 75). -/
def admin_delete_user (s : AppState) (u : User) (target_id : Nat) :
    Option Err × AppState :=
  if !u.is_admin then
    (some .forbidden, s)
  else
    match s.users.find? (fun t => t.id == target_id) with
    | none => (some .notFound, s)
    | some target =>
      if target.id == u.id then
        (some .conflict, s)
      else
        let postedIds :=
          (s.jobs.filter (fun j => j.posted_by_id == some target.id)).map Job.id
        (none, { s with
          users := s.users.filter (fun t => t.id != target.id),
          jobs := s.jobs.filter (fun j => j.posted_by_id != some target.id),
          applications := s.applications.filter
            (fun a => a.applicant_id != target.id
                      && !(postedIds.contains a.job_id)) })

/-- Number of application rows for an (applicant, job) pair. -/
def pairCount (s : AppState) (uid jid : Nat) : Nat :=
  (s.applications.filter
    (fun a => a.applicant_id == uid && a.job_id == jid)).length

/-- The spec's Job invariant (§3): title, company, description non-empty,
for every job in the store. -/
def jobsValid (s : AppState) : Bool :=
  s.jobs.all (fun j => j.job_title != "" && j.company != "" && j.description != "")

/-- Case-insensitive substring relation, the free-text semantics the
spec claims for the `q` filter: `needle` occurs contiguously in
`haystack`, compared lower-cased. -/
def isSubstringCI (needle haystack : String) : Bool :=
  subAux (lower needle).data (lower haystack).data
where
  subAux (n : List Char) : List Char → Bool
    | [] => n.isEmpty
    | c :: hs => n.isPrefixOf (c :: hs) || subAux n hs


/-! ## Fixtures for concrete counterexamples and witnesses -/

/-- The bootstrap admin account (app.py lines 83-92). -/
def adminFixture : User :=
  { id := 1
    fullname := "Site Admin"
    email := "admin@gmail.com"
    password_hash := generate_password_hash "Admin@123"
    is_admin := true
    is_employer := true
    created_at := 0 }

/-- A store with two jobs posted by the admin that share the creation
timestamp `5`. -/
def twoJobsTiedState : AppState :=
  { users := [adminFixture]
    jobs := [{ id := 1, job_title := "A", company := "C", salary := "",
               description := "D", location := "", job_type := "",
               created_at := 5, posted_by_id := some 1 },
             { id := 2, job_title := "B", company := "C", salary := "",
               description := "E", location := "", job_type := "",
               created_at := 5, posted_by_id := some 1 }]
    applications := []
    nextUserId := 2
    nextJobId := 3
    nextAppId := 1 }

/-- A job whose title is `"ab"` and whose description is `"x"`. -/
def jobAB : Job :=
  { id := 1, job_title := "ab", company := "C", salary := "",
    description := "x", location := "", job_type := "",
    created_at := 5, posted_by_id := some 1 }

/-- A store holding only `jobAB`. -/
def jobABState : AppState :=
  { users := [adminFixture]
    jobs := [jobAB]
    applications := []
    nextUserId := 2
    nextJobId := 2
    nextAppId := 1 }

/-! ## C4 — unfiltered listing -/

/-- C4 (counterexample): with two jobs sharing creation timestamp `5`,
the unfiltered listing does return all jobs, but it is not ordered
*strictly* by creation timestamp descending: no output order of two
equal timestamps can be strict. -/
theorem C4_counterexample :
    (listJobs twoJobsTiedState "" "" "" "").Perm twoJobsTiedState.jobs ∧
    ¬ (listJobs twoJobsTiedState "" "" "" "").Pairwise
        (fun a b => b.created_at < a.created_at) := by decide

/-- C4 (amended): `listJobs` with no filters returns all jobs, ordered
by creation timestamp descending — non-strictly, since jobs with equal
timestamps may appear in either relative order. -/
theorem C4_all_jobs_newest_first (s : AppState) :
    (listJobs s "" "" "" "").Perm s.jobs ∧
    (listJobs s "" "" "" "").Sorted byNewest := by
  constructor
  · have hstrip : strip "" = "" := rfl
    have hfilter :
        s.jobs.filter
          (jobMatchesFilters (strip "") (strip "") (strip "") (strip "")) =
          s.jobs := by
      apply List.filter_eq_self.mpr
      intro j hj
      rw [hstrip]
      simp [jobMatchesFilters]
    unfold listJobs
    rw [hfilter]
    exact List.perm_insertionSort byNewest s.jobs
  · exact List.sorted_insertionSort byNewest _

/-! ## C5 — filter semantics -/

/-- C5 (counterexample): the free-text query is fed to SQL `ilike`
without escaping, so `%` and `_` act as wildcards rather than literal
characters.  The query `"a%b"` returns the job titled `"ab"`, although
`"a%b"` is not a case-insensitive substring of its title `"ab"` nor of
its description `"x"` — refuting the claimed substring semantics. -/
theorem C5_counterexample :
    jobAB ∈ listJobs jobABState "a%b" "" "" "" ∧
    isSubstringCI "a%b" jobAB.job_title = false ∧
    isSubstringCI "a%b" jobAB.description = false := by decide

/-- C5 (amended): `listJobs` returns exactly the jobs satisfying the
conjunction of the supplied filters; unsupplied (blank after stripping)
filters impose no constraint; company, location and job type match by
case-insensitive exact equality; the free-text query matches title OR
description by the case-insensitive SQL LIKE pattern `%q%`, in which
`%` and `_` in the query act as wildcards (for queries without `%` or
`_` this is case-insensitive substring matching). -/
theorem C5_filter_semantics (s : AppState) (q c l t : String) (j : Job) :
    j ∈ listJobs s q c l t ↔
      j ∈ s.jobs ∧
      (strip q = "" ∨ likeCI ("%" ++ strip q ++ "%") j.job_title = true
                    ∨ likeCI ("%" ++ strip q ++ "%") j.description = true) ∧
      (strip c = "" ∨ lower j.company = lower (strip c)) ∧
      (strip l = "" ∨ lower j.location = lower (strip l)) ∧
      (strip t = "" ∨ lower j.job_type = lower (strip t)) := by
  unfold listJobs
  rw [List.mem_insertionSort, List.mem_filter]
  simp [jobMatchesFilters, and_assoc, or_assoc]

/-! ## C9 — employer/admin gate on job creation -/

/-- C9: an authenticated identity with neither the employer nor the
admin flag gets Forbidden from `createJob` and no job is persisted
(the state is returned unchanged); an identity with either flag set
passes the gate (the result is never Forbidden). -/
theorem C9_employer_or_admin_gate :
    (∀ (s : AppState) (now : Nat) (u : User) (f : JobForm),
        u.is_employer = false → u.is_admin = false →
        create_job s now u f = (some .forbidden, s)) ∧
    (∀ (s : AppState) (now : Nat) (u : User) (f : JobForm),
        u.is_employer = true ∨ u.is_admin = true →
        (create_job s now u f).1 ≠ some .forbidden) := by
  constructor
  · intro s now u f he ha
    unfold create_job
    rw [if_pos (by simp [he, ha])]
  · intro s now u f hor
    simp only [create_job]
    rw [if_neg (by rcases hor with h | h <;> simp [h])]
    split <;> simp

/-- C9 (witness): the bootstrap admin passes the gate; a plain user,
registered with no flags, is rejected with Forbidden. -/
theorem C9_employer_or_admin_gate_witness :
    create_job jobABState 9
        { id := 7, fullname := "Bob", email := "bob@x.com",
          password_hash := "pw", is_admin := false, is_employer := false,
          created_at := 3 }
        { job_title := "T", company := "C", salary := "",
          description := "D", location := "", job_type := "" } =
      (some .forbidden, jobABState) ∧
    (create_job jobABState 9 adminFixture
        { job_title := "T", company := "C", salary := "",
          description := "D", location := "", job_type := "" }).1 ≠
      some .forbidden := by
  constructor
  · exact C9_employer_or_admin_gate.1 jobABState 9 _ _ rfl rfl
  · exact C9_employer_or_admin_gate.2 jobABState 9 adminFixture _ (Or.inl rfl)

/-! ## C10 — password/confirmation mismatch -/

/-- C10: whenever the password field differs from the confirmation
field, registration fails with ValidationError and the state — in
particular the user table — is unchanged.  (When one of the two fields
is blank the earlier required-fields check fires; it raises the same
ValidationError.) -/
theorem C10_password_confirm_mismatch (s : AppState) (now : Nat)
    (f : RegisterForm) (h : f.password ≠ f.confirm) :
    register s now f = (some .validation, s) := by
  simp only [register]
  split
  · rfl
  · rw [if_pos (bne_iff_ne.mpr h)]

/-- C10 (witness): a concrete mismatching registration is rejected. -/
theorem C10_password_confirm_mismatch_witness :
    register jobABState 9
        { fullname := "Bob", email := "bob@x.com", password := "pw1",
          confirm := "pw2", is_employer := none } =
      (some .validation, jobABState) :=
  C10_password_confirm_mismatch jobABState 9 _ (by decide)

/-! ## C8 — no admin self-deletion -/

/-- C8: an admin deleting their own id gets Conflict with the state
unchanged (their row is still present); deleting any other existing
user succeeds (no error). -/
theorem C8_admin_no_self_delete (s : AppState) (u : User)
    (hadmin : u.is_admin = true) (hmem : u ∈ s.users) :
    (admin_delete_user s u u.id = (some .conflict, s) ∧
      u ∈ (admin_delete_user s u u.id).2.users) ∧
    (∀ tid target, s.users.find? (fun t => t.id == tid) = some target →
      tid ≠ u.id → (admin_delete_user s u tid).1 = none) := by
  constructor
  · have hfind : ∃ t, s.users.find? (fun t => t.id == u.id) = some t ∧
        (t.id == u.id) = true := by
      cases hf : s.users.find? (fun t => t.id == u.id) with
      | none => exact absurd (List.find?_eq_none.mp hf u hmem) (by simp)
      | some t =>
        have := List.find?_some hf
        exact ⟨t, rfl, by simpa using this⟩
    obtain ⟨t, hf, ht⟩ := hfind
    have hres : admin_delete_user s u u.id = (some .conflict, s) := by
      simp only [admin_delete_user, hadmin, Bool.not_true]
      rw [if_neg (by simp), hf]
      simp only [ht, if_true]
    exact ⟨hres, by rw [hres]; exact hmem⟩
  · intro tid target hf htid
    have ht : (target.id == tid) = true := by
      have := List.find?_some hf
      simpa using this
    have htne : (target.id == u.id) = false := by
      simp only [beq_iff_eq] at ht ⊢
      simp [ht, htid]
    simp only [admin_delete_user, hadmin, Bool.not_true]
    rw [if_neg (by simp), hf]
    simp only [htne, Bool.false_eq_true, if_false]

/-- C8 (witness): in a store with the admin and one plain user, the
admin cannot delete themselves but can delete the other user. -/
theorem C8_admin_no_self_delete_witness :
    admin_delete_user
        { users := [adminFixture,
                    { id := 2, fullname := "Bob", email := "bob@x.com",
                      password_hash := "pw", is_admin := false,
                      is_employer := false, created_at := 3 }],
          jobs := [], applications := [],
          nextUserId := 3, nextJobId := 1, nextAppId := 1 }
        adminFixture adminFixture.id =
      (some .conflict,
        { users := [adminFixture,
                    { id := 2, fullname := "Bob", email := "bob@x.com",
                      password_hash := "pw", is_admin := false,
                      is_employer := false, created_at := 3 }],
          jobs := [], applications := [],
          nextUserId := 3, nextJobId := 1, nextAppId := 1 }) ∧
    (admin_delete_user
        { users := [adminFixture,
                    { id := 2, fullname := "Bob", email := "bob@x.com",
                      password_hash := "pw", is_admin := false,
                      is_employer := false, created_at := 3 }],
          jobs := [], applications := [],
          nextUserId := 3, nextJobId := 1, nextAppId := 1 }
        adminFixture 2).1 = none := by
  constructor
  · exact (C8_admin_no_self_delete _ adminFixture rfl (by decide)).1.1
  · exact (C8_admin_no_self_delete _ adminFixture rfl (by decide)).2 2 _ rfl
      (by decide)

/-! ## C1 — non-empty title/company/description invariant -/

/-- A partial-update form that blanks the title. -/
def blankTitleEdit : EditForm :=
  { job_title := some "", company := none, salary := none,
    location := none, job_type := none, description := none }

/-- C1 (counterexample): the invariant is established at creation but
is NOT preserved by partial update: `edit_job` performs no
non-emptiness validation, so an update that supplies an empty title
succeeds and leaves a job with an empty title in the store. -/
theorem C1_counterexample :
    jobsValid jobABState = true ∧
    (edit_job jobABState adminFixture 1 blankTitleEdit).1 = none ∧
    jobsValid (edit_job jobABState adminFixture 1 blankTitleEdit).2 =
      false := by decide

/-- C1 (amended): every job written by `createJob` has non-empty
title, company and description, and the invariant is preserved by
`createJob`; partial update preserves it only under the extra guard
that each of the title/company/description fields it supplies strips
to a non-empty string — a guard the code does not enforce. -/
theorem C1_invariant_create_and_guarded_edit :
    (∀ (s : AppState) (now : Nat) (u : User) (f : JobForm) (s' : AppState),
        jobsValid s = true → create_job s now u f = (none, s') →
        jobsValid s' = true) ∧
    (∀ (s : AppState) (u : User) (jid : Nat) (f : EditForm) (s' : AppState)
        (tt cc dd : String),
        jobsValid s = true →
        f.job_title = some tt → strip tt ≠ "" →
        f.company = some cc → strip cc ≠ "" →
        f.description = some dd → strip dd ≠ "" →
        edit_job s u jid f = (none, s') → jobsValid s' = true) := by
  constructor
  · intro s now u f s' hval hok
    simp only [create_job] at hok
    split at hok
    · simp at hok
    · split at hok
      · simp at hok
      · rename_i hguard
        simp only [Prod.mk.injEq] at hok
        obtain ⟨-, hs'⟩ := hok
        subst hs'
        simp only [jobsValid, List.all_append, Bool.and_eq_true] at hval ⊢
        refine ⟨hval, ?_⟩
        simp only [Bool.or_eq_true, beq_iff_eq] at hguard
        push_neg at hguard
        simp [bne_iff_ne, hguard.1.1, hguard.1.2, hguard.2]
  · intro s u jid f s' tt cc dd hval hft htt hfc hcc hfd hdd hok
    simp only [edit_job] at hok
    split at hok
    · simp at hok
    · rename_i job hfind
      split at hok
      · simp at hok
      · simp only [Prod.mk.injEq] at hok
        obtain ⟨-, hs'⟩ := hok
        subst hs'
        simp only [jobsValid, List.all_eq_true] at hval ⊢
        intro x hx
        simp only [List.mem_map] at hx
        obtain ⟨j, hj, rfl⟩ := hx
        by_cases hid : (j.id == job.id) = true
        · rw [if_pos hid]
          simp [hft, hfc, hfd, bne_iff_ne, htt, hcc, hdd]
        · rw [if_neg hid]
          exact hval j hj

/-- A concrete valid job-creation form. -/
def createFormW : JobForm :=
  { job_title := "Backend Engineer", company := "Acme", salary := "",
    description := "Build things", location := "", job_type := "" }

/-- A concrete fully-supplied, non-blank edit form. -/
def editFormW : EditForm :=
  { job_title := some "Senior Engineer", company := some "Acme",
    salary := none, location := none, job_type := none,
    description := some "More things" }

/-- C1 (witness): concrete creation and a fully-supplied non-blank
edit both preserve the invariant. -/
theorem C1_invariant_witness :
    jobsValid (create_job jobABState 9 adminFixture createFormW).2 = true ∧
    jobsValid (edit_job jobABState adminFixture 1 editFormW).2 = true := by
  constructor
  · exact C1_invariant_create_and_guarded_edit.1 jobABState 9 adminFixture
      createFormW (create_job jobABState 9 adminFixture createFormW).2
      (by decide) (by decide)
  · exact C1_invariant_create_and_guarded_edit.2 jobABState adminFixture 1
      editFormW (edit_job jobABState adminFixture 1 editFormW).2
      "Senior Engineer" "Acme" "More things"
      (by decide) (by decide) (by decide) (by decide) (by decide) (by decide)
      (by decide) (by decide)

/-! ## C6 — resume extension validation -/

/-- C6: an apply call that includes a resume file (non-empty filename)
fails with ValidationError — storing nothing — exactly when the
filename does not pass `allowed_file` (extension after the last dot,
case-insensitively, one of pdf/doc/docx); with an allowed extension the
call succeeds.  In particular "exe" is rejected while pdf/doc/docx in
any letter case are accepted.  (The job-exists and not-yet-applied
hypotheses position the call past the earlier NotFound/Conflict
checks, which the code runs first.) -/
theorem C6_resume_extension_validation :
    (∀ (s : AppState) (now : Nat) (u : User) (jid : Nat) (cl fn : String)
        (job : Job),
        s.jobs.find? (fun j => j.id == jid) = some job →
        s.applications.find?
          (fun a => a.job_id == job.id && a.applicant_id == u.id) = none →
        fn ≠ "" → allowed_file fn = false →
        apply s now u jid cl (some fn) = (some .validation, s)) ∧
    (∀ (s : AppState) (now : Nat) (u : User) (jid : Nat) (cl fn : String)
        (job : Job),
        s.jobs.find? (fun j => j.id == jid) = some job →
        s.applications.find?
          (fun a => a.job_id == job.id && a.applicant_id == u.id) = none →
        allowed_file fn = true →
        (apply s now u jid cl (some fn)).1 = none) ∧
    allowed_file "resume.exe" = false ∧
    allowed_file "resume.pdf" = true ∧
    allowed_file "resume.PDF" = true ∧
    allowed_file "resume.Doc" = true ∧
    allowed_file "resume.dOcX" = true := by
  refine ⟨?_, ?_, by decide, by decide, by decide, by decide, by decide⟩
  · intro s now u jid cl fn job hjob hdup hfne hbad
    have hfn : (fn == "") = false := by simp [hfne]
    simp [apply, hjob, hdup, resumeStep, hfn, hbad]
  · intro s now u jid cl fn job hjob hdup hgood
    have hfne : fn ≠ "" := by
      intro h
      rw [h] at hgood
      exact absurd hgood (by decide)
    have hfn : (fn == "") = false := by simp [hfne]
    simp [apply, hjob, hdup, resumeStep, hfn, hgood]

/-- A store with the admin, one plain user and one job, and no
applications yet. -/
def applyReadyState : AppState :=
  { users := [adminFixture,
              { id := 2, fullname := "Bob", email := "bob@x.com",
                password_hash := "pw", is_admin := false,
                is_employer := false, created_at := 3 }],
    jobs := [jobAB], applications := [],
    nextUserId := 3, nextJobId := 2, nextAppId := 1 }

/-- The plain user of `applyReadyState`. -/
def bobFixture : User :=
  { id := 2, fullname := "Bob", email := "bob@x.com",
    password_hash := "pw", is_admin := false, is_employer := false,
    created_at := 3 }

/-- C6 (witness): an "exe" resume is rejected with ValidationError and
nothing is stored; a "PDF" resume is accepted. -/
theorem C6_resume_extension_validation_witness :
    apply applyReadyState 9 bobFixture 1 "Hi" (some "resume.exe") =
      (some .validation, applyReadyState) ∧
    (apply applyReadyState 9 bobFixture 1 "Hi" (some "resume.PDF")).1 =
      none := by
  constructor
  · exact C6_resume_extension_validation.1 applyReadyState 9 bobFixture 1
      "Hi" "resume.exe" jobAB (by decide) rfl (by decide) (by decide)
  · exact C6_resume_extension_validation.2.1 applyReadyState 9 bobFixture 1
      "Hi" "resume.PDF" jobAB (by decide) rfl (by decide)

/-! ## C2 — at most one application per (applicant, job) pair -/

/-- C2: after a successful `apply` for `(u, jid)`, a second `apply`
call for the same pair — whatever its cover letter or resume — fails
with Conflict, the state is unchanged by the failed call, and the
number of application rows for the pair is exactly 1. -/
theorem C2_second_apply_conflicts (s : AppState) (now now2 : Nat) (u : User)
    (jid : Nat) (cl cl2 : String) (r r2 : Option String) (s' : AppState)
    (hok : apply s now u jid cl r = (none, s')) :
    apply s' now2 u jid cl2 r2 = (some .conflict, s') ∧
    pairCount s' u.id jid = 1 := by
  simp only [apply] at hok
  split at hok
  · simp at hok
  · rename_i job hjob
    split at hok
    · simp at hok
    · rename_i hdup
      split at hok
      · simp at hok
      · rename_i rf hres
        simp only [Prod.mk.injEq] at hok
        obtain ⟨-, hs'⟩ := hok
        subst hs'
        have hjid : job.id = jid := by simpa using List.find?_some hjob
        have hdup' : s.applications.find?
            (fun a => a.job_id == job.id && a.applicant_id == u.id) = none := by
          cases hd : s.applications.find?
              (fun a => a.job_id == job.id && a.applicant_id == u.id) with
          | none => rfl
          | some x => rw [hd] at hdup; simp at hdup
        constructor
        · simp only [apply]
          rw [hjob]
          dsimp only
          rw [List.find?_append, hdup']
          simp
        · simp only [pairCount]
          rw [List.filter_append]
          have h1 : s.applications.filter
              (fun x => x.applicant_id == u.id && x.job_id == jid) = [] := by
            rw [List.filter_eq_nil_iff]
            intro x hx
            have hnx := List.find?_eq_none.mp hdup' x hx
            simp only [Bool.and_eq_true, beq_iff_eq, not_and] at hnx ⊢
            intro hxa hxj
            exact hnx (by rw [hxj, hjid]) hxa
          rw [h1]
          simp [hjid]

/-- C2 (witness): Bob applies to the job once, then again; the second
call returns Conflict and the pair has exactly one application row. -/
theorem C2_second_apply_conflicts_witness :
    apply (apply applyReadyState 9 bobFixture 1 "Hi" none).2 10 bobFixture 1
        "Again" none =
      (some .conflict, (apply applyReadyState 9 bobFixture 1 "Hi" none).2) ∧
    pairCount (apply applyReadyState 9 bobFixture 1 "Hi" none).2
        bobFixture.id 1 = 1 :=
  C2_second_apply_conflicts applyReadyState 9 10 bobFixture 1 "Hi" "Again"
    none none (apply applyReadyState 9 bobFixture 1 "Hi" none).2 (by decide)

/-! ## C3 — lower-cased, unique email at registration -/

/-- C3: a successful registration stores the email lower-cased (and
stripped), and a second otherwise-valid registration whose email equals
that email up to case fails with Conflict and creates no user (state
unchanged).  The hypotheses on the second form make it pass the earlier
required-fields and confirmation checks, so that the defensive
duplicate check is what fires. -/
theorem C3_email_lowercased_unique (s : AppState) (now now2 : Nat)
    (f f2 : RegisterForm) (s' : AppState)
    (hok : register s now f = (none, s'))
    (hfn : strip f2.fullname ≠ "")
    (hpw : f2.password ≠ "")
    (hcf : f2.confirm = f2.password)
    (hem : lower (strip f2.email) = lower (strip f.email)) :
    (∃ usr, s'.users = s.users ++ [usr] ∧
       usr.email = lower (strip f.email)) ∧
    register s' now2 f2 = (some .conflict, s') := by
  simp only [register] at hok
  split at hok
  · simp at hok
  · split at hok
    · simp at hok
    · split at hok
      · simp at hok
      · rename_i hg1 hg2 hg3
        simp only [Prod.mk.injEq] at hok
        obtain ⟨-, hs'⟩ := hok
        subst hs'
        have hg1' : ¬ strip f.fullname = "" ∧ ¬ lower (strip f.email) = "" ∧
            ¬ f.password = "" ∧ ¬ f.confirm = "" := by
          simp only [Bool.or_eq_true, beq_iff_eq] at hg1
          push_neg at hg1
          obtain ⟨⟨⟨hA, hB⟩, hC⟩, hD⟩ := hg1
          exact ⟨hA, hB, hC, hD⟩
        have hg3' : s.users.find?
            (fun u => u.email == lower (strip f.email)) = none := by
          cases hd : s.users.find?
              (fun u => u.email == lower (strip f.email)) with
          | none => rfl
          | some x => rw [hd] at hg3; simp at hg3
        refine ⟨⟨_, rfl, rfl⟩, ?_⟩
        simp only [register]
        rw [if_neg (by simp [hfn, hem, hg1'.2.1, hpw, hcf])]
        rw [if_neg (by simp [hcf])]
        rw [hem, List.find?_append, hg3']
        simp

/-- An empty store (before the admin bootstrap). -/
def emptyState : AppState :=
  { users := [], jobs := [], applications := [],
    nextUserId := 1, nextJobId := 1, nextAppId := 1 }

/-- Alice registers with a mixed-case, padded email. -/
def aliceForm : RegisterForm :=
  { fullname := "Alice", email := " Alice@X.Com ", password := "pw",
    confirm := "pw", is_employer := some "on" }

/-- A second registration with Alice's email in a different case. -/
def aliceDupForm : RegisterForm :=
  { fullname := "Bob", email := "ALICE@x.com", password := "pw2",
    confirm := "pw2", is_employer := none }

/-- C3 (witness): after Alice registers, registering the same email in
another letter case is rejected with Conflict, changing nothing. -/
theorem C3_email_lowercased_unique_witness :
    register (register emptyState 5 aliceForm).2 6 aliceDupForm =
      (some .conflict, (register emptyState 5 aliceForm).2) :=
  (C3_email_lowercased_unique emptyState 5 6 aliceForm aliceDupForm
    (register emptyState 5 aliceForm).2 (by decide) (by decide) (by decide)
    (by decide) (by decide)).2

/-! ## C7 — cascading deletes -/

/-- C7: deleting a job removes exactly that job and exactly the
applications referencing it (users untouched); an admin deleting a user
removes exactly that user, the jobs they posted, and the applications
they submitted or that reference one of their posted jobs — and no
other rows, as the surviving rows are literally the filters below over
the input tables. -/
theorem C7_cascading_deletes :
    (∀ (s : AppState) (u : User) (jid : Nat) (job : Job),
        s.jobs.find? (fun j => j.id == jid) = some job →
        (job.posted_by_id = some u.id ∨ u.is_admin = true) →
        delete_job s u jid =
          (none, { s with
            jobs := s.jobs.filter (fun j => j.id != jid),
            applications := s.applications.filter
              (fun a => a.job_id != jid) })) ∧
    (∀ (s : AppState) (u : User) (tid : Nat) (target : User),
        u.is_admin = true →
        s.users.find? (fun t => t.id == tid) = some target →
        tid ≠ u.id →
        admin_delete_user s u tid =
          (none, { s with
            users := s.users.filter (fun t => t.id != tid),
            jobs := s.jobs.filter (fun j => j.posted_by_id != some tid),
            applications := s.applications.filter
              (fun a => a.applicant_id != tid &&
                !(((s.jobs.filter (fun j => j.posted_by_id == some tid)).map
                    Job.id).contains a.job_id)) })) := by
  constructor
  · intro s u jid job hjob hauth
    have hjid : job.id = jid := by simpa using List.find?_some hjob
    simp only [delete_job]
    rw [hjob]
    dsimp only
    rw [if_neg (by rcases hauth with h | h <;> simp [h])]
    rw [hjid]
  · intro s u tid target hadmin hfind htid
    have htgt : target.id = tid := by simpa using List.find?_some hfind
    simp only [admin_delete_user, hadmin, Bool.not_true]
    rw [if_neg (by simp), hfind]
    dsimp only
    rw [if_neg (by simp [htgt, htid])]
    rw [htgt]

/-- A job posted by the admin. -/
def cascadeJob1 : Job :=
  { id := 1, job_title := "T1", company := "C1", salary := "",
    description := "D1", location := "", job_type := "",
    created_at := 4, posted_by_id := some 1 }

/-- A job posted by Bob. -/
def cascadeJob2 : Job :=
  { id := 2, job_title := "T2", company := "C2", salary := "",
    description := "D2", location := "", job_type := "",
    created_at := 6, posted_by_id := some 2 }

/-- Two users, two jobs, and cross applications: Bob applied to the
admin's job and the admin applied to Bob's job. -/
def cascadeState : AppState :=
  { users := [adminFixture, bobFixture]
    jobs := [cascadeJob1, cascadeJob2]
    applications := [{ id := 1, applicant_id := 2, job_id := 1,
                       cover_letter := "cl", resume_path := none,
                       created_at := 7 },
                     { id := 2, applicant_id := 1, job_id := 2,
                       cover_letter := "cl2", resume_path := none,
                       created_at := 8 }]
    nextUserId := 3
    nextJobId := 3
    nextAppId := 3 }

/-- C7 (witness): deleting job 1 and deleting user 2 both proceed on
the concrete store (their cascades are given by the theorem). -/
theorem C7_cascading_deletes_witness :
    (delete_job cascadeState adminFixture 1).1 = none ∧
    (admin_delete_user cascadeState adminFixture 2).1 = none := by
  constructor
  · rw [C7_cascading_deletes.1 cascadeState adminFixture 1 cascadeJob1
      (by decide) (Or.inr rfl)]
  · rw [C7_cascading_deletes.2 cascadeState adminFixture 2 bobFixture rfl
      (by decide) (by decide)]

end JobPortal
